import Mathlib

/-!
Verification development for the OCR server's core processing logic
(`src/server/server.cpp`).  Raw engine output and all text values are
modelled as byte lists (`List Nat`, each entry one `unsigned char`),
since the raw recognition output may contain arbitrary non-ASCII bytes.
-/

/-- Byte string "[UNREADABLE]" (server.cpp line 159). -/
def UNREADABLE : List Nat := [91, 85, 78, 82, 69, 65, 68, 65, 66, 76, 69, 93]

/-- Byte string "[ERROR: Unable to open image]" (server.cpp line 77). -/
def ERR_OPEN : List Nat :=
  [91, 69, 82, 82, 79, 82, 58, 32, 85, 110, 97, 98, 108, 101, 32, 116, 111,
   32, 111, 112, 101, 110, 32, 105, 109, 97, 103, 101, 93]

/-- Byte string "[ERROR: Tesseract initialization failed]" (server.cpp line 65). -/
def ERR_INIT : List Nat :=
  [91, 69, 82, 82, 79, 82, 58, 32, 84, 101, 115, 115, 101, 114, 97, 99, 116,
   32, 105, 110, 105, 116, 105, 97, 108, 105, 122, 97, 116, 105, 111, 110,
   32, 102, 97, 105, 108, 101, 100, 93]

/-- The removal predicate of the first sanitization step (server.cpp
lines 127-128 and 137-138): `c > 127 || (c < 32 && c != ' ' && c != '\n')`,
on an `unsigned char c`.  Space is byte 32 and newline is byte 10. -/
def stripPred (c : Nat) : Bool := c > 127 || (c < 32 && c != 32 && c != 10)

/-- `text.erase(std::remove_if(...))` with `stripPred`: keep exactly the
bytes on which `stripPred` is false (server.cpp lines 127-128). -/
def stripCtl (s : List Nat) : List Nat := s.filter (fun c => !stripPred c)

/-- `text.erase(std::remove(text.begin(), text.end(), '\r'))`
(server.cpp line 147); carriage return is byte 13. -/
def removeCR (s : List Nat) : List Nat := s.filter (fun c => c != 13)

/-- `text.erase(std::remove(text.begin(), text.end(), '\t'))`
(server.cpp line 148); tab is byte 9. -/
def removeTab (s : List Nat) : List Nat := s.filter (fun c => c != 9)

/-- The trimming character class of `find_first_not_of(" \n")` /
`find_last_not_of(" \n")` (server.cpp lines 150-151). -/
def isWsB (b : Nat) : Bool := b == 32 || b == 10

/-- The trim of server.cpp lines 150-156: `substr(start_pos, end_pos -
start_pos + 1)` where `start_pos = find_first_not_of(" \n")` and
`end_pos = find_last_not_of(" \n")`, and the empty string when every
byte is a space or newline.  Taking the segment from the first
non-whitespace byte through the last non-whitespace byte is the same as
dropping the maximal whitespace run from the front (`List.dropWhile`)
and then from the back (`List.rdropWhile`). -/
def trimWs (l : List Nat) : List Nat := List.rdropWhile isWsB (List.dropWhile isWsB l)

/-- The steps applied after the strip step to whichever text is current:
remove carriage returns, remove tabs, trim, and substitute
"[UNREADABLE]" for an empty result (server.cpp lines 146-160). -/
def postClean (t : List Nat) : List Nat :=
  let t1 := removeTab (removeCR t)
  let t2 := trimWs t1
  if t2 = [] then UNREADABLE else t2

/-- Full sanitization of one raw engine output: the strip step followed
by `postClean`.  This is the composite transformation server.cpp applies
to the raw text of whichever recognition attempt is kept. -/
def sanitize (s : List Nat) : List Nat := postClean (stripCtl s)

/-- The extraction policy of server.cpp lines 124-160, as a function of
the raw `SingleBlock` output and the raw `SingleWord` output (each
already coalesced to the empty string when `GetUTF8Text` returns null,
as in `raw_text ? raw_text : ""`):
strip the `SingleBlock` output; if the stripped text is empty or has
length < 2, run the `SingleWord` attempt and strip its output; then
apply the carriage-return/tab removal, trim and empty-substitution to
whichever text is current. -/
def extractText (rawBlock rawWord : List Nat) : List Nat :=
  let t1 := stripCtl rawBlock
  if t1 = [] ∨ t1.length < 2 then postClean (stripCtl rawWord)
  else postClean t1

/-- Abstraction of the external engine's behaviour on one job: whether
`api.Init` fails (server.cpp line 61), whether `pixRead` fails (line 73),
and the raw text each recognition attempt would return (lines 124, 134),
null already coalesced to the empty string. -/
structure EngineRun where
  initFails : Bool
  decodeFails : Bool
  rawBlock : List Nat
  rawWord : List Nat
deriving DecidableEq

/-- The text component of `ThreadPool::process_image` (server.cpp
lines 47-166): initialization failure short-circuits to the
initialization sentinel, then decode failure to the open-image sentinel,
and otherwise the extraction policy runs. -/
def process_image_text (e : EngineRun) : List Nat :=
  if e.initFails then ERR_INIT
  else if e.decodeFails then ERR_OPEN
  else extractText e.rawBlock e.rawWord

/-- ASCII C0 control bytes. -/
def isControlByte (b : Nat) : Bool := b < 32

/-- The spec's byte-removal class, read off the spec's own words: a byte
is removed when it is non-ASCII (> 127), or a control character other
than space and newline, or a carriage return, or a tab. -/
def specRemove (b : Nat) : Bool :=
  (b > 127 || (isControlByte b && b != 32 && b != 10)) || b == 13 || b == 9

/-- Sanitization stated from the spec's words (spec section 4.5), for
comparison with `sanitize`, which is traced from the code: remove every
byte in the removal class, trim leading and trailing spaces and
newlines, and substitute "[UNREADABLE]" when the result is empty after
trimming. -/
def sanitizeSpec (s : List Nat) : List Nat :=
  let t := s.filter (fun b => !specRemove b)
  let t2 := trimWs t
  if t2 = [] then UNREADABLE else t2

/-- The uniform scaling factor of server.cpp line 89:
`std::max(500.0f / w, 250.0f / h)`, modelled exactly over ℚ. -/
def scaleFactor (w h : ℕ) : ℚ := max (500 / (w : ℚ)) (250 / (h : ℚ))

/-- The dimensions of the bitmap after the upscale-if-small stage
(server.cpp lines 84-92): when `w < 500 || h < 250` both dimensions are
multiplied by the single factor `scaleFactor w h` (`pixScale(gray,
scale, scale)`); otherwise the image is left unscaled. -/
def upscaleDims (w h : ℕ) : ℚ × ℚ :=
  if w < 500 ∨ h < 250 then ((w : ℚ) * scaleFactor w h, (h : ℚ) * scaleFactor w h)
  else ((w : ℚ), (h : ℚ))

/-- One optional enhancement stage applied to a bitmap handle: the stage
either produces a new bitmap or nothing, and on nothing the input passes
through unchanged.  This is the `if (result) { pixDestroy(&old); old =
result; }` pattern of server.cpp lines 94-104. -/
def runOptStage (f : Nat → Option Nat) (b : Nat) : Nat := (f b).getD b

/-- The bitmap handed to recognition after the optional enhancement
stages (server.cpp lines 94-107): unsharp masking, then contrast
normalization, each pass-through on failure, then `final_image = binary
? binary : scaled`. -/
def finalImage (sharpen contrast binarize : Nat → Option Nat) (scaled : Nat) : Nat :=
  let s1 := runOptStage sharpen scaled
  let s2 := runOptStage contrast s1
  match binarize s2 with
  | some b => b
  | none => s2

/-- `ThreadPool::enqueue` (server.cpp lines 228-234): push the task at
the tail of the queue. -/
def enqueueTask {α : Type} (q : List α) (j : α) : List α := q ++ [j]

/-- The dequeue of `ThreadPool::worker` (server.cpp lines 177-178):
`tasks.front()` then `tasks.pop()` — remove and return the head. -/
def takeNext {α : Type} : List α → Option (α × List α)
  | [] => none
  | j :: rest => some (j, rest)

/-- Helper for termination of `drainOrder`: a successful `takeNext`
strictly shrinks the queue. -/
theorem takeNext_length {α : Type} {q : List α} {jr : α × List α}
    (h : takeNext q = some jr) : jr.2.length < q.length := by
  cases q with
  | nil => simp [takeNext] at h
  | cons a l =>
    simp only [takeNext, Option.some.injEq] at h
    subst h
    simp

/-- The order in which a single worker, looping on `takeNext`, processes
the jobs of a queue (server.cpp lines 168-179 with one worker thread):
repeatedly remove the head until the queue is empty. -/
def drainOrder {α : Type} (q : List α) : List α :=
  match h : takeNext q with
  | none => []
  | some jr => jr.1 :: drainOrder jr.2
termination_by q.length
decreasing_by exact takeNext_length h

/-- The fields of `ocr::ImageRequest` the worker reads (server.cpp
lines 185-191): identifiers and the raw image bytes. -/
structure ImageRequest where
  image_id : Nat
  filename : List Nat
  image_data : List Nat
deriving DecidableEq

/-- The fields of `ocr::OCRResponse` the worker writes (server.cpp
lines 189-195). -/
structure OCRResponse where
  image_id : Nat
  filename : List Nat
  extracted_text : List Nat
  success : Bool
deriving DecidableEq

/-- The response fill of `ThreadPool::worker` (server.cpp lines
189-195): the response carries the task's own request identifiers, the
processing result's text, and `success = true` unconditionally. -/
def fillResponse (req : ImageRequest) (e : EngineRun) : OCRResponse :=
  ⟨req.image_id, req.filename, process_image_text e, true⟩

/-- The transport status of `OCRServiceImpl::ProcessImage` (server.cpp
lines 244-269). -/
inductive GrpcStatus where
  | ok
  | error
deriving DecidableEq

/-- `OCRServiceImpl::ProcessImage` (server.cpp lines 244-269): the
handler waits for the worker's filled response and returns `Status::OK`
unconditionally. -/
def ProcessImageHandler (req : ImageRequest) (e : EngineRun) : OCRResponse × GrpcStatus :=
  (fillResponse req e, GrpcStatus.ok)

/-- A batch of jobs processed by the pool, each with its own engine
behaviour: every response is filled from its own task's request
(server.cpp lines 168-206; each `OCRTask` holds its own `response`
slot). -/
def runJobs (ts : List (ImageRequest × EngineRun)) : List OCRResponse :=
  ts.map (fun t => fillResponse t.1 t.2)

/-- Helper: the retry condition of server.cpp line 130 collapses to a
length test, and the final text is the full sanitization of whichever
raw attempt is kept. -/
theorem extractText_eq_sanitize (rb rw : List Nat) :
    extractText rb rw =
      if (stripCtl rb).length < 2 then sanitize rw else sanitize rb := by
  unfold extractText sanitize
  by_cases h : (stripCtl rb).length < 2
  · rw [if_pos h, if_pos (Or.inr h)]
  · rw [if_neg h, if_neg]
    rintro (hnil | hlen)
    · exact h (by simp [hnil])
    · exact h hlen

/-- Helper: `postClean` never returns the empty byte string. -/
theorem postClean_ne_nil (t : List Nat) : postClean t ≠ [] := by
  unfold postClean
  by_cases h : trimWs (removeTab (removeCR t)) = []
  · simp only [h, if_pos]
    decide
  · simp only [h, if_neg]
    exact h

/-- Helper: `sanitize` never returns the empty byte string. -/
theorem sanitize_ne_nil (s : List Nat) : sanitize s ≠ [] :=
  postClean_ne_nil (stripCtl s)

/-- Claim C1 counterexample: with raw SingleBlock output "a \n" (bytes
[97, 32, 10]) and raw SingleWord output "bc" (bytes [98, 99]), the
sanitized SingleBlock output is "a", of length 1 < 2, yet the final
result is "a", not the sanitized SingleWord output "bc": the code keys
the retry on the stripped untrimmed text (length 3 here), not on the
sanitized text. -/
theorem retry_trigger_counterexample :
    (sanitize [97, 32, 10]).length < 2 ∧
      extractText [97, 32, 10] [98, 99] ≠ sanitize [98, 99] := by
  decide

/-- Claim C1 (amended): the retry is keyed on the stripped, untrimmed
SingleBlock output: when its length is < 2 the policy runs SingleWord
once more and the final result is the sanitized SingleWord output (even
if also short); when its length is >= 2 there is no retry and the final
result is the sanitized SingleBlock output, even when the fully
sanitized (trimmed) SingleBlock text is shorter than 2 characters. -/
theorem retry_trigger_amended (rb rw : List Nat) :
    extractText rb rw =
      if (stripCtl rb).length < 2 then sanitize rw else sanitize rb :=
  extractText_eq_sanitize rb rw

/-- Claim C3: the result text of a completed job is never empty: it is
the initialization sentinel, the open-image sentinel, or the sanitized
output of one of the two recognition attempts (which is itself
"[UNREADABLE]" when empty after trimming). -/
theorem result_text_never_empty (e : EngineRun) :
    process_image_text e ≠ [] ∧
      (process_image_text e = ERR_INIT ∨ process_image_text e = ERR_OPEN ∨
       process_image_text e = sanitize e.rawBlock ∨
       process_image_text e = sanitize e.rawWord) := by
  by_cases hi : e.initFails
  · have hpi : process_image_text e = ERR_INIT := by simp [process_image_text, hi]
    exact ⟨by rw [hpi]; decide, Or.inl hpi⟩
  · by_cases hd : e.decodeFails
    · have hpi : process_image_text e = ERR_OPEN := by
        simp [process_image_text, hi, hd]
      exact ⟨by rw [hpi]; decide, Or.inr (Or.inl hpi)⟩
    · have hpi : process_image_text e = extractText e.rawBlock e.rawWord := by
        simp [process_image_text, hi, hd]
      rw [hpi, extractText_eq_sanitize]
      by_cases h : (stripCtl e.rawBlock).length < 2
      · rw [if_pos h]
        exact ⟨sanitize_ne_nil _, Or.inr (Or.inr (Or.inr rfl))⟩
      · rw [if_neg h]
        exact ⟨sanitize_ne_nil _, Or.inr (Or.inr (Or.inl rfl))⟩

/-- Claim C6: the handler always returns the OK transport status, the
worker always sets the success flag, and a job whose engine initialized
but whose bytes are undecodable gets exactly the open-image sentinel. -/
theorem never_error_status (req : ImageRequest) (e : EngineRun) :
    (ProcessImageHandler req e).2 = GrpcStatus.ok ∧
    (fillResponse req e).success = true ∧
    (e.initFails = false → e.decodeFails = true →
      (fillResponse req e).extracted_text = ERR_OPEN) := by
  refine ⟨rfl, rfl, ?_⟩
  intro h1 h2
  simp [fillResponse, process_image_text, h1, h2]

/-- Witness for claim C6 at a concrete request and an engine run whose
decode fails. -/
theorem never_error_status_witness :
    (ProcessImageHandler ⟨3, [102], [1]⟩ ⟨false, true, [], []⟩).2 = GrpcStatus.ok ∧
    (fillResponse ⟨3, [102], [1]⟩ ⟨false, true, [], []⟩).success = true ∧
    (fillResponse ⟨3, [102], [1]⟩ ⟨false, true, [], []⟩).extracted_text = ERR_OPEN :=
  ⟨(never_error_status ⟨3, [102], [1]⟩ ⟨false, true, [], []⟩).1,
   (never_error_status ⟨3, [102], [1]⟩ ⟨false, true, [], []⟩).2.1,
   (never_error_status ⟨3, [102], [1]⟩ ⟨false, true, [], []⟩).2.2 rfl rfl⟩

/-- Claim C7: each optional enhancement stage passes its input through
unchanged when it produces nothing, and when binarization fails,
recognition runs directly on the contrast-normalized image. -/
theorem optional_stage_passthrough
    (sharpen contrast binarize : Nat → Option Nat) (scaled : Nat) :
    (sharpen scaled = none → runOptStage sharpen scaled = scaled) ∧
    (contrast (runOptStage sharpen scaled) = none →
      runOptStage contrast (runOptStage sharpen scaled) =
        runOptStage sharpen scaled) ∧
    (binarize (runOptStage contrast (runOptStage sharpen scaled)) = none →
      finalImage sharpen contrast binarize scaled =
        runOptStage contrast (runOptStage sharpen scaled)) := by
  refine ⟨fun h => ?_, fun h => ?_, fun h => ?_⟩
  · simp [runOptStage, h]
  · simp only [runOptStage] at h ⊢
    rw [h]
    rfl
  · simp only [finalImage, runOptStage] at h ⊢
    rw [h]

/-- Witness for claim C7: every optional stage fails and the original
bitmap reaches recognition unchanged. -/
theorem optional_stage_passthrough_witness :
    runOptStage (fun _ => none) 7 = 7 ∧
    runOptStage (fun _ => none) (runOptStage (fun _ => none) 7) =
      runOptStage (fun _ => none) 7 ∧
    finalImage (fun _ => none) (fun _ => none) (fun _ => none) 7 =
      runOptStage (fun _ => none) (runOptStage (fun _ => none) 7) :=
  ⟨(optional_stage_passthrough (fun _ => none) (fun _ => none) (fun _ => none) 7).1 rfl,
   (optional_stage_passthrough (fun _ => none) (fun _ => none) (fun _ => none) 7).2.1 rfl,
   (optional_stage_passthrough (fun _ => none) (fun _ => none) (fun _ => none) 7).2.2 rfl⟩

/-- Helper: submitting a batch through `enqueueTask` appends it. -/
theorem foldl_enqueueTask {α : Type} (js acc : List α) :
    List.foldl enqueueTask acc js = acc ++ js := by
  induction js generalizing acc with
  | nil => simp
  | cons a t ih => simp [enqueueTask, ih, List.append_assoc]

/-- Helper: a single worker looping on `takeNext` processes a queue
front to back. -/
theorem drainOrder_id {α : Type} (l : List α) : drainOrder l = l := by
  induction l with
  | nil =>
    rw [drainOrder]
    rfl
  | cons a t ih =>
    rw [drainOrder]
    simpa [takeNext] using ih

/-- Claim C8: the queue is FIFO: submitting jobs in some order via
`enqueueTask` and draining them with a single worker via `takeNext`
processes them in exactly the submission order. -/
theorem fifo_order {α : Type} (js : List α) :
    drainOrder (List.foldl enqueueTask [] js) = js := by
  rw [foldl_enqueueTask, List.nil_append, drainOrder_id]

/-- Claim C9: every response is filled from its own task's request: the
delivered response at position i carries the identifiers of the request
at position i, so no two jobs' results are cross-assigned. -/
theorem no_cross_assignment (ts : List (ImageRequest × EngineRun)) (i : Nat)
    (req : ImageRequest) (e : EngineRun) (resp : OCRResponse)
    (h1 : ts[i]? = some (req, e)) (h2 : (runJobs ts)[i]? = some resp) :
    resp.image_id = req.image_id ∧ resp.filename = req.filename := by
  rw [runJobs, List.getElem?_map, h1] at h2
  simp at h2
  subst h2
  exact ⟨rfl, rfl⟩

/-- Witness for claim C9 on a one-job batch. -/
theorem no_cross_assignment_witness :
    (fillResponse ⟨3, [102], [1]⟩ ⟨true, false, [], []⟩).image_id =
      (⟨3, [102], [1]⟩ : ImageRequest).image_id ∧
    (fillResponse ⟨3, [102], [1]⟩ ⟨true, false, [], []⟩).filename =
      (⟨3, [102], [1]⟩ : ImageRequest).filename :=
  no_cross_assignment [(⟨3, [102], [1]⟩, ⟨true, false, [], []⟩)] 0
    ⟨3, [102], [1]⟩ ⟨true, false, [], []⟩
    (fillResponse ⟨3, [102], [1]⟩ ⟨true, false, [], []⟩) rfl rfl

/-- Claim C10: initialization is checked before decoding: a failed
initialization yields the initialization sentinel no matter whether the
bytes are decodable, and the open-image sentinel can only arise for a
job whose initialization succeeded. -/
theorem init_before_decode (e : EngineRun) :
    (e.initFails = true → process_image_text e = ERR_INIT) ∧
    (process_image_text e = ERR_OPEN → e.initFails = false) := by
  constructor
  · intro h
    simp [process_image_text, h]
  · intro h
    by_cases hi : e.initFails
    · rw [process_image_text, if_pos hi] at h
      exact absurd h (by decide)
    · simpa using hi

/-- Witness for claim C10: one run with failed initialization and
undecodable bytes, and one run with successful initialization whose
decode fails. -/
theorem init_before_decode_witness :
    process_image_text ⟨true, true, [], []⟩ = ERR_INIT ∧
    (⟨false, true, [], []⟩ : EngineRun).initFails = false :=
  ⟨(init_before_decode ⟨true, true, [], []⟩).1 rfl,
   (init_before_decode ⟨false, true, [], []⟩).2 (by decide)⟩

/-- Helper: the removal class written in the spec's words coincides
pointwise with the composition of the code's three erase passes. -/
theorem removal_pointwise (a : Nat) :
    (a != 9 && a != 13 && !stripPred a) = !specRemove a := by
  rw [Bool.eq_iff_iff]
  simp [stripPred, specRemove, isControlByte]
  omega

/-- Helper: the code's strip, carriage-return and tab passes compose to
a single filter by the spec's removal class. -/
theorem strip_chain_eq (s : List Nat) :
    removeTab (removeCR (stripCtl s)) = s.filter (fun b => !specRemove b) := by
  unfold removeTab removeCR stripCtl
  rw [List.filter_filter, List.filter_filter]
  exact List.filter_congr (fun a _ => removal_pointwise a)

/-- Claim C2: the sanitization performed by the code equals, on every
input, the sanitization the spec describes: remove every non-ASCII byte
and every control character other than space and newline, remove
carriage returns and tabs, trim leading and trailing spaces and
newlines, and substitute "[UNREADABLE]" for an empty result. -/
theorem sanitize_eq_spec (s : List Nat) : sanitize s = sanitizeSpec s := by
  unfold sanitize postClean sanitizeSpec
  rw [strip_chain_eq]

/-- Helper: trimming is idempotent. -/
theorem trimWs_idem (l : List Nat) : trimWs (trimWs l) = trimWs l := by
  unfold trimWs
  have hd : List.dropWhile isWsB (List.rdropWhile isWsB (List.dropWhile isWsB l)) =
      List.rdropWhile isWsB (List.dropWhile isWsB l) := by
    rw [List.dropWhile_eq_self_iff]
    intro hl
    have hpre : List.rdropWhile isWsB (List.dropWhile isWsB l) <+:
        List.dropWhile isWsB l := List.rdropWhile_prefix _ _
    have hm : 0 < (List.dropWhile isWsB l).length := lt_of_lt_of_le hl hpre.length_le
    have hget := hpre.getElem hl
    have hnot := List.dropWhile_get_zero_not isWsB l hm
    simp only [List.get_eq_getElem] at hnot ⊢
    rw [hget]
    exact hnot
  rw [hd]
  exact List.rdropWhile_idempotent _ _

/-- Helper: trimming only removes bytes. -/
theorem mem_of_mem_trimWs {b : Nat} {l : List Nat} (hb : b ∈ trimWs l) : b ∈ l := by
  unfold trimWs at hb
  have hpre := List.rdropWhile_prefix isWsB (List.dropWhile isWsB l)
  exact (List.dropWhile_suffix isWsB).subset (hpre.subset hb)

/-- Helper: sanitizing a byte string that is already stripped, contains
no carriage return or tab, is trimmed, and is nonempty, is a no-op. -/
theorem sanitize_of_clean {t : List Nat}
    (hkeep : ∀ b ∈ t, stripPred b = false)
    (h13 : ∀ b ∈ t, b ≠ 13) (h9 : ∀ b ∈ t, b ≠ 9)
    (htrim : trimWs t = t) (hne : t ≠ []) : sanitize t = t := by
  have h1 : stripCtl t = t := by
    unfold stripCtl
    rw [List.filter_eq_self]
    intro b hb
    simp [hkeep b hb]
  have h2 : removeCR t = t := by
    unfold removeCR
    rw [List.filter_eq_self]
    intro b hb
    simp [h13 b hb]
  have h3 : removeTab t = t := by
    unfold removeTab
    rw [List.filter_eq_self]
    intro b hb
    simp [h9 b hb]
  simp only [sanitize, postClean]
  rw [h1, h2, h3, htrim, if_neg hne]

/-- Claim C4: sanitization is idempotent: applying the
strip/CR-tab/trim/substitute pipeline to an already sanitized string
returns it unchanged. -/
theorem sanitize_idem (s : List Nat) : sanitize (sanitize s) = sanitize s := by
  by_cases h : trimWs (removeTab (removeCR (stripCtl s))) = []
  · have hs : sanitize s = UNREADABLE := by
      simp only [sanitize, postClean]
      rw [h, if_pos rfl]
    rw [hs]
    decide
  · have hs : sanitize s = trimWs (removeTab (removeCR (stripCtl s))) := by
      simp only [sanitize, postClean]
      rw [if_neg h]
    rw [hs]
    apply sanitize_of_clean
    · intro b hb
      have hb1 : b ∈ removeTab (removeCR (stripCtl s)) := mem_of_mem_trimWs hb
      have hb2 : b ∈ stripCtl s := by
        unfold removeTab removeCR at hb1
        exact List.mem_of_mem_filter (List.mem_of_mem_filter hb1)
      have := List.of_mem_filter hb2
      simpa using this
    · intro b hb
      have hb1 : b ∈ removeTab (removeCR (stripCtl s)) := mem_of_mem_trimWs hb
      have hb2 : b ∈ removeCR (stripCtl s) := List.mem_of_mem_filter hb1
      have := List.of_mem_filter hb2
      simpa using this
    · intro b hb
      have hb1 : b ∈ removeTab (removeCR (stripCtl s)) := mem_of_mem_trimWs hb
      have := List.of_mem_filter hb1
      simpa using this
    · exact trimWs_idem _
    · exact h

/-- Claim C5: a decoded image smaller than the 500x250 floor is scaled
uniformly by `max(500/w, 250/h)`, so the bitmap fed to recognition meets
both floors and keeps the input aspect ratio exactly; an image meeting
both floors is not scaled. -/
theorem upscale_property (w h : Nat) (hw : 0 < w) (hh : 0 < h) :
    ((w < 500 ∨ h < 250) →
      500 ≤ (upscaleDims w h).1 ∧ 250 ≤ (upscaleDims w h).2 ∧
      (upscaleDims w h).1 / (upscaleDims w h).2 = (w : ℚ) / (h : ℚ)) ∧
    (500 ≤ w → 250 ≤ h → upscaleDims w h = ((w : ℚ), (h : ℚ))) := by
  have hwq : (0 : ℚ) < (w : ℚ) := by exact_mod_cast hw
  have hhq : (0 : ℚ) < (h : ℚ) := by exact_mod_cast hh
  have hs : 0 < scaleFactor w h :=
    lt_of_lt_of_le (div_pos (by norm_num) hwq) (le_max_left _ _)
  constructor
  · intro hcond
    rw [upscaleDims, if_pos hcond]
    refine ⟨?_, ?_, ?_⟩
    · have h1 : (w : ℚ) * (500 / (w : ℚ)) = 500 := by
        field_simp
      calc (500 : ℚ) = (w : ℚ) * (500 / (w : ℚ)) := h1.symm
        _ ≤ (w : ℚ) * scaleFactor w h :=
            mul_le_mul_of_nonneg_left (le_max_left _ _) hwq.le
    · have h1 : (h : ℚ) * (250 / (h : ℚ)) = 250 := by
        field_simp
      calc (250 : ℚ) = (h : ℚ) * (250 / (h : ℚ)) := h1.symm
        _ ≤ (h : ℚ) * scaleFactor w h :=
            mul_le_mul_of_nonneg_left (le_max_right _ _) hhq.le
    · rw [mul_comm (w : ℚ) (scaleFactor w h), mul_comm (h : ℚ) (scaleFactor w h),
        mul_div_mul_left _ _ (ne_of_gt hs)]
  · intro h500 h250
    rw [upscaleDims, if_neg]
    rintro (hlt | hlt) <;> omega

/-- Witness for claim C5 at a 100x50 input: the scaled dimensions meet
both floors and the aspect ratio 2:1 is preserved. -/
theorem upscale_property_witness :
    (500 : ℚ) ≤ (upscaleDims 100 50).1 ∧ (250 : ℚ) ≤ (upscaleDims 100 50).2 ∧
    (upscaleDims 100 50).1 / (upscaleDims 100 50).2 = (100 : ℚ) / (50 : ℚ) :=
  (upscale_property 100 50 (by norm_num) (by norm_num)).1 (Or.inl (by norm_num))
